import Mathlib

/-!
Verification of the VibeAlarmSys trigger-attribution engine
(`custom_components/vibe_alarm_sys/__init__.py`).

The Python module is embedded shallowly: pure helpers become Lean
functions, the two event handlers become functions from an event (and the
current cache / clock) to the updated cache resp. the list of pushes they
emit, and the dispatcher becomes a function producing the trace of
registry lookups and remote-action invocations it performs.  Timestamps
are integers (seconds); Python string lower-casing is modelled on the
ASCII fragment, which covers every string the module manipulates.
-/

namespace VibeAlarmSys

/-- Raw Python values that can appear as a state payload in this module:
booleans, strings, or `None`. -/
inductive PyVal where
  | bool (b : Bool)
  | str (s : String)
  | pynone
deriving DecidableEq

/-- Python `str(v)` on the values of `PyVal`. -/
def pyStr : PyVal → String
  | .bool true => "True"
  | .bool false => "False"
  | .str s => s
  | .pynone => "None"

/-- Python `s.lower()` restricted to ASCII, the fragment this module uses. -/
def lowerAscii (s : String) : String :=
  String.mk (s.data.map Char.toLower)

/-- Embeds `_normalize_boolish`: `True` ↦ `"true"`, `False` ↦ `"false"`,
anything else ↦ `str(state).lower()`. -/
def normalizeBoolish : PyVal → String
  | .bool true => "true"
  | .bool false => "false"
  | v => lowerAscii (pyStr v)

/-- Embeds `RELEVANT_DEVICE_CLASSES`. -/
def relevantDeviceClasses : List String :=
  ["door", "window", "opening", "garage_door", "motion", "occupancy",
   "presence", "lock"]

/-- Embeds `ACTIVE_STATES`. -/
def activeStates : List String :=
  ["on", "open", "opened", "true"]

/-- A host state object as seen by the handlers: raw `.state`, the
`.attributes` mapping, and `.name`. -/
structure StateObj where
  state : PyVal
  attributes : List (String × String)
  name : String
deriving DecidableEq

/-- A state-change notification payload: `entity_id`, `old_state`,
`new_state`, each possibly missing. -/
structure Event where
  entity_id : Option String
  old_state : Option StateObj
  new_state : Option StateObj
deriving DecidableEq

/-- Python `attrs.get(key)` on the attributes mapping. -/
def attrGet (attrs : List (String × String)) (key : String) : Option String :=
  (attrs.find? (fun kv => kv.1 == key)).map (fun kv => kv.2)

/-- Python `x or y` where `x` is an optional string (`None` and `""` are
falsy) and `y` is a string. -/
def pyOrStr (x : Option String) (y : String) : String :=
  match x with
  | some s => if s = "" then y else s
  | none => y

/-- One entry of the trigger cache, as built in `on_binary_sensor_change`. -/
structure ActivationRecord where
  ts : Int
  entity_id : String
  name : String
  device_class : String
  state : String
deriving DecidableEq

/-- Capacity of the trigger cache: `deque(maxlen=300)`. -/
def cacheCapacity : Nat := 300

/-- Appends to a `deque(maxlen=cap)`, newest at the end: when full, the
oldest (leftmost) element is discarded. -/
def dequeAppend {α : Type} (cap : Nat) (q : List α) (x : α) : List α :=
  (q ++ [x]).drop ((q ++ [x]).length - cap)

/-- Embeds `trigger_cache.append` with the source capacity. -/
def triggerCacheAppend (q : List ActivationRecord) (x : ActivationRecord) :
    List ActivationRecord :=
  dequeAppend cacheCapacity q x

/-- Embeds `on_binary_sensor_change`: given the clock value, the current
cache and the event, returns the resulting cache. -/
def onBinarySensorChange (now : Int) (cache : List ActivationRecord)
    (event : Event) : List ActivationRecord :=
  match event.entity_id, event.new_state with
  | some eid, some ns =>
    if eid = "" then cache
    else
      let new_s := normalizeBoolish ns.state
      if new_s = "unknown" ∨ new_s = "unavailable" ∨ new_s = "none" then cache
      else
        match attrGet ns.attributes "device_class" with
        | none => cache
        | some dc =>
          if dc ∈ relevantDeviceClasses then
            let old_s : Option String :=
              event.old_state.map (fun os => normalizeBoolish os.state)
            if old_s = some new_s then cache
            else if new_s ∈ activeStates then
              triggerCacheAppend cache
                { ts := now, entity_id := eid,
                  name := pyOrStr (attrGet ns.attributes "friendly_name") eid,
                  device_class := dc, state := new_s }
            else cache
          else cache
  | _, _ => cache

/-- Embeds the scan in `_handle`: first element of `reversed(trigger_cache)`
(newest first) whose age is within the lookback window. -/
def resolveChosen (now lookback : Int) (cache : List ActivationRecord) :
    Option ActivationRecord :=
  cache.reverse.find? (fun item => decide (now - item.ts ≤ lookback))

/-- Embeds the attribution fallback in `_handle`: the chosen record's name,
else the alarm state's `source` attribute, else `"Alarm"`. -/
def resolveSource (now lookback : Int) (cache : List ActivationRecord)
    (rawSource : Option String) : String :=
  match resolveChosen now lookback cache with
  | some item => item.name
  | none => pyOrStr rawSource "Alarm"

/-- Embeds `on_alarm_change` plus `_handle` at the push-call level: the list
of `push_to_all` calls it makes, as pairs `(state_text?, source_text?)`. -/
def onAlarmChange (now lookback : Int) (cache : List ActivationRecord)
    (event : Event) : List (Option String × Option String) :=
  match event.new_state with
  | none => []
  | some ns =>
    let alarmState := normalizeBoolish ns.state
    if alarmState = "triggered" then
      [(some alarmState, none),
       (none, some (resolveSource now lookback cache
                      (attrGet ns.attributes "source")))]
    else
      [(some alarmState, none)]

/-- Embeds `device_slug`'s `split(".", 1)`: splits at the first dot,
returning `[before, after]`, or `[whole]` when no dot occurs. -/
def splitFirstDot (acc : List Char) : List Char → List (List Char)
  | [] => [acc.reverse]
  | c :: rest =>
    if c = '.' then [acc.reverse, rest] else splitFirstDot (c :: acc) rest

/-- Python `s.strip()` on ASCII whitespace. -/
def pyStrip (l : List Char) : List Char :=
  ((l.dropWhile Char.isWhitespace).reverse.dropWhile Char.isWhitespace).reverse

/-- Embeds `device_slug`: the piece after the first dot (the whole id when
there is no dot), stripped of surrounding whitespace. -/
def deviceSlug (esphome_entity_id : String) : String :=
  String.mk (pyStrip ((splitFirstDot [] esphome_entity_id.data).getLastD []))

/-- Embeds `svc_state`. -/
def svcState (slug : String) : String := slug ++ "_set_alarm_state"

/-- Embeds `svc_source`. -/
def svcSource (slug : String) : String := slug ++ "_set_alarm_source"

/-- Embeds `svc_panel`. -/
def svcPanel (slug : String) : String := slug ++ "_set_alarm_panel_name"

/-- Python `base.replace("-", "_")` (single-character replacement). -/
def dashToUnderscore (s : String) : String :=
  String.mk (s.data.map (fun c => if c = '-' then '_' else c))

/-- Python `base.replace("_", "-")` (single-character replacement). -/
def underscoreToDash (s : String) : String :=
  String.mk (s.data.map (fun c => if c = '_' then '-' else c))

/-- The candidate list tried by `_pick_esphome_service`. -/
def serviceCandidates (base : String) : List String :=
  [base, dashToUnderscore base, underscoreToDash base]

/-- One observable step of the dispatcher: a registry lookup
(`has_service`) or a remote-action invocation (`async_call` with a
one-entry payload). -/
inductive DispatchEv where
  | lookup (service : String)
  | invoke (service : String) (key : String) (value : String)
deriving DecidableEq

/-- Walks a candidate list the way `_pick_esphome_service` does, recording
each `has_service` lookup and returning the first registered name. -/
def findFirstService (reg : String → Bool) :
    List String → List DispatchEv × Option String
  | [] => ([], none)
  | c :: rest =>
    if reg c then ([.lookup c], some c)
    else
      let r := findFirstService reg rest
      (.lookup c :: r.1, r.2)

/-- Embeds `_pick_esphome_service`: tries the exact name, then the name
with dashes replaced by underscores, then the reverse. -/
def pickEsphomeService (reg : String → Bool) (base : String) :
    List DispatchEv × Option String :=
  findFirstService reg (serviceCandidates base)

/-- Embeds `_safe_esphome_call`: re-checks `has_service`, then invokes. -/
def safeEsphomeCall (reg : String → Bool) (service key value : String) :
    List DispatchEv :=
  .lookup service :: (if reg service then [.invoke service key value] else [])

/-- The repeated pattern in `push_to_all`: pick a service for `base` and,
when found, call it with the one-entry payload `{key: value}`. -/
def pushAction (reg : String → Bool) (base key value : String) :
    List DispatchEv :=
  (pickEsphomeService reg base).1 ++
    (match (pickEsphomeService reg base).2 with
     | some service => safeEsphomeCall reg service key value
     | none => [])

/-- The host collaborators `push_to_all` consults: the esphome service
registry (`hass.services.has_service("esphome", ·)`) and the state machine
(`hass.states.get`). -/
structure Hass where
  services : String → Bool
  states : String → Option StateObj

/-- Embeds the panel-name computation in `push_to_all`:
`st.attributes.get("friendly_name") or st.name`. -/
def panelNameOf (st : StateObj) : String :=
  pyOrStr (attrGet st.attributes "friendly_name") st.name

/-- The `if text is not None:` guard around each push block of
`push_to_all`: run the block only when the optional text is present. -/
def pushOptAction (reg : String → Bool) (base key : String) :
    Option String → List DispatchEv
  | some txt => pushAction reg base key txt
  | none => []

/-- The panel-name block of `push_to_all`: look up the alarm entity, take
`st.attributes.get("friendly_name") or st.name` as the panel name, and push
it unless it is absent or empty. -/
def pushPanelBlock (hass : Hass) (alarm_entity slug : String) :
    List DispatchEv :=
  match (hass.states alarm_entity).map panelNameOf with
  | some pn =>
    if pn = "" then [] else pushAction hass.services (svcPanel slug) "name" pn
  | none => []

/-- Embeds one iteration of the `push_to_all` device loop: the trace of
lookups and invocations performed for device `dev`. -/
def pushDevice (hass : Hass) (alarm_entity : String)
    (stateText sourceText : Option String) (dev : String) : List DispatchEv :=
  if deviceSlug dev = "" then []
  else
    pushOptAction hass.services (svcState (deviceSlug dev)) "state" stateText ++
    pushOptAction hass.services (svcSource (deviceSlug dev)) "source" sourceText ++
    pushPanelBlock hass alarm_entity (deviceSlug dev)

/-- Embeds `push_to_all`: the device loop, in order. -/
def pushToAll (hass : Hass) (alarm_entity : String) (devices : List String)
    (stateText sourceText : Option String) : List DispatchEv :=
  match devices with
  | [] => []
  | d :: rest =>
    pushDevice hass alarm_entity stateText sourceText d ++
      pushToAll hass alarm_entity rest stateText sourceText

/-- Recognizes an invocation event. -/
def isInvokeEv : DispatchEv → Bool
  | .invoke _ _ _ => true
  | .lookup _ => false

/-- Recognizes an invocation event whose payload key is `k`. -/
def isInvokeWithKey (k : String) : DispatchEv → Bool
  | .invoke _ key _ => key == k
  | .lookup _ => false

/-- Scenario record: activation of the front door sensor at t = 0 s. -/
def frontDoorRecord : ActivationRecord :=
  ⟨0, "binary_sensor.front_door", "Front Door", "door", "on"⟩

/-- Scenario record: activation of the back window sensor at t = 5 s. -/
def backWindowRecord : ActivationRecord :=
  ⟨5, "binary_sensor.back_window", "Back Window", "window", "on"⟩

/-- A sensor notification whose `old_state` is missing but which otherwise
satisfies every ingestion condition. -/
def missingOldStateEvent : Event :=
  { entity_id := some "binary_sensor.front_door",
    old_state := none,
    new_state := some { state := .str "on",
                        attributes := [("device_class", "door")],
                        name := "Front Door" } }

/-- A host where exactly the service `"_set_alarm_state"` is registered and
no alarm entity state exists. -/
def bareStateHass : Hass :=
  ⟨fun s => s == "_set_alarm_state", fun _ => none⟩

/-- A host where exactly the service `"dev1_set_alarm_state"` is registered
and no alarm entity state exists. -/
def dev1StateHass : Hass :=
  ⟨fun s => s == "dev1_set_alarm_state", fun _ => none⟩

/-- A host with an empty service registry and no states. -/
def emptyHass : Hass :=
  ⟨fun _ => false, fun _ => none⟩

section Helpers

/-- Helper: `Char.ofNat` of a valid code point decodes back to it. -/
theorem charOfNat_toNat (n : Nat) (h : n.isValidChar) :
    (Char.ofNat n).toNat = n := by
  simp only [Char.ofNat, h, dif_pos, Char.ofNatAux, Char.toNat]
  rfl

/-- Helper: `Char.toLower` is idempotent. -/
theorem charToLower_idem (c : Char) :
    Char.toLower (Char.toLower c) = Char.toLower c := by
  simp only [Char.toLower]
  by_cases h : c.toNat ≥ 65 ∧ c.toNat ≤ 90
  · rw [if_pos h]
    have hv : (c.toNat + 32).isValidChar := by
      left
      omega
    rw [charOfNat_toNat _ hv, if_neg (by omega)]
  · rw [if_neg h, if_neg h]

/-- Helper: ASCII lower-casing is idempotent. -/
theorem lowerAscii_idem (s : String) :
    lowerAscii (lowerAscii s) = lowerAscii s := by
  simp only [lowerAscii, List.map_map]
  congr 1
  apply List.map_congr_left
  intro c _
  exact charToLower_idem c

/-- Helper: a successful `find?` splits the list into rejected elements, the
hit, and a remainder. -/
theorem find?_split {α : Type} {p : α → Bool} :
    ∀ {l : List α} {a : α}, l.find? p = some a →
      ∃ l₁ l₂, l = l₁ ++ a :: l₂ ∧ ∀ x ∈ l₁, p x = false := by
  intro l
  induction l with
  | nil => intro a h; simp [List.find?] at h
  | cons b t ih =>
    intro a h
    rw [List.find?] at h
    by_cases hb : p b
    · rw [hb] at h
      simp only [Option.some.injEq] at h
      subst h
      exact ⟨[], t, by simp⟩
    · rw [Bool.not_eq_true] at hb
      rw [hb] at h
      obtain ⟨l₁, l₂, hsplit, hfail⟩ := ih h
      refine ⟨b :: l₁, l₂, by simp [hsplit], ?_⟩
      intro x hx
      rcases List.mem_cons.mp hx with hx | hx
      · subst hx; exact hb
      · exact hfail x hx

/-- Helper: a deque append never exceeds the capacity. -/
theorem dequeAppend_length_le {α : Type} (cap : Nat) (q : List α) (x : α)
    (hq : q.length ≤ cap) : (dequeAppend cap q x).length ≤ cap := by
  simp only [dequeAppend, List.length_drop, List.length_append, List.length_cons,
    List.length_nil]
  omega

/-- Helper: folding deque appends from a within-capacity start keeps the
suffix of the combined stream. -/
theorem foldl_dequeAppend {α : Type} (cap : Nat) :
    ∀ (xs q : List α), q.length ≤ cap →
      List.foldl (dequeAppend cap) q xs =
        (q ++ xs).drop ((q ++ xs).length - cap) := by
  intro xs
  induction xs with
  | nil =>
    intro q hq
    simp only [List.foldl_nil, List.append_nil]
    rw [Nat.sub_eq_zero_of_le hq, List.drop_zero]
  | cons x t ih =>
    intro q hq
    rw [List.foldl_cons, ih (dequeAppend cap q x) (dequeAppend_length_le cap q x hq)]
    have hsplit : dequeAppend cap q x ++ t
        = ((q ++ [x]) ++ t).drop ((q ++ [x]).length - cap) := by
      rw [dequeAppend]
      exact (List.drop_append_of_le_length (by simp)).symm
    rw [hsplit, List.drop_drop]
    have hassoc : (q ++ [x]) ++ t = q ++ x :: t := by simp
    rw [hassoc]
    congr 1
    simp only [List.length_drop, List.length_append, List.length_cons,
      List.length_nil]
    omega

/-- Helper: the lookup trace of `findFirstService` holds lookups only. -/
theorem findFirstService_trace_lookup (reg : String → Bool) :
    ∀ (cands : List String) (e : DispatchEv),
      e ∈ (findFirstService reg cands).1 → ∃ n, e = .lookup n := by
  intro cands
  induction cands with
  | nil => intro e he; simp [findFirstService] at he
  | cons c rest ih =>
    intro e he
    by_cases hc : reg c
    · simp [findFirstService, hc] at he
      exact ⟨c, he⟩
    · simp only [findFirstService, hc, Bool.false_eq_true, if_false,
        List.mem_cons] at he
      rcases he with he | he
      · exact ⟨c, he⟩
      · exact ih e he

/-- Helper: membership in a `pushAction` trace is a lookup or the single
invocation of the picked service with the block's payload. -/
theorem mem_pushAction (reg : String → Bool) (base key value : String)
    (e : DispatchEv) (he : e ∈ pushAction reg base key value) :
    (∃ n, e = .lookup n) ∨
      ∃ s, e = .invoke s key value ∧ reg s = true ∧
        (pickEsphomeService reg base).2 = some s := by
  rw [pushAction] at he
  rcases List.mem_append.mp he with hl | hr
  · exact Or.inl (findFirstService_trace_lookup reg _ e hl)
  · rcases hpick : (pickEsphomeService reg base).2 with _ | s
    · rw [hpick] at hr
      simp at hr
    · rw [hpick] at hr
      simp only [safeEsphomeCall, List.mem_cons] at hr
      rcases hr with h1 | h2
      · exact Or.inl ⟨s, h1⟩
      · by_cases hregs : reg s
        · rw [if_pos hregs] at h2
          simp only [List.mem_singleton] at h2
          exact Or.inr ⟨s, h2, hregs, rfl⟩
        · rw [if_neg hregs] at h2
          simp at h2

/-- Helper: a `pushAction` block contributes at most one invocation with
payload key `k`, and none when `k` is not the block's key. -/
theorem pushAction_filter_key (reg : String → Bool) (base key value k : String) :
    ((pushAction reg base key value).filter (isInvokeWithKey k)).length
      ≤ if k = key then 1 else 0 := by
  rw [pushAction, List.filter_append]
  have htr : ((pickEsphomeService reg base).1.filter (isInvokeWithKey k)) = [] := by
    rw [List.filter_eq_nil_iff]
    intro e he
    obtain ⟨n, rfl⟩ := findFirstService_trace_lookup reg _ e he
    simp [isInvokeWithKey]
  rw [htr, List.nil_append]
  rcases hpick : (pickEsphomeService reg base).2 with _ | s
  · simp
  · simp only [safeEsphomeCall]
    by_cases hk : k = key
    · subst hk
      by_cases hregs : reg s <;> simp [isInvokeWithKey, hregs, List.filter]
    · have hbeq : (key == k) = false := by
        rw [beq_eq_false_iff_ne]
        exact fun h => hk h.symm
      by_cases hregs : reg s <;>
        simp [isInvokeWithKey, hregs, hk, List.filter, hbeq]

/-- Helper: a push block whose exact base name is registered performs the
pick lookup, the recheck lookup, and the single invocation. -/
theorem pushAction_exact_registered (reg : String → Bool)
    (base key value : String) (h : reg base = true) :
    pushAction reg base key value =
      [.lookup base, .lookup base, .invoke base key value] := by
  simp [pushAction, pickEsphomeService, serviceCandidates, findFirstService, h,
    safeEsphomeCall]

/-- Helper: a push block none of whose name variants is registered makes no
invocation. -/
theorem pushAction_unregistered (reg : String → Bool) (base key value : String)
    (h : ∀ c ∈ serviceCandidates base, reg c = false) :
    (pushAction reg base key value).filter isInvokeEv = [] := by
  have h1 := h base (by simp [serviceCandidates])
  have h2 := h (dashToUnderscore base) (by simp [serviceCandidates])
  have h3 := h (underscoreToDash base) (by simp [serviceCandidates])
  simp [pushAction, pickEsphomeService, serviceCandidates, findFirstService,
    h1, h2, h3, isInvokeEv]

/-- Helper: the panel block makes no invocation when no panel-name variant
is registered. -/
theorem pushPanelBlock_unregistered (hass : Hass) (ae slug : String)
    (h : ∀ c ∈ serviceCandidates (svcPanel slug), hass.services c = false) :
    (pushPanelBlock hass ae slug).filter isInvokeEv = [] := by
  rw [pushPanelBlock]
  rcases (hass.states ae).map panelNameOf with _ | pn
  · rfl
  · show ((if pn = "" then []
        else pushAction hass.services (svcPanel slug) "name" pn).filter
          isInvokeEv) = []
    by_cases hpn : pn = ""
    · simp [hpn]
    · rw [if_neg hpn]
      exact pushAction_unregistered hass.services _ "name" _ h

/-- Helper: per-key invocation bound for an optional-text block. -/
theorem pushOptAction_filter_key (reg : String → Bool) (base key k : String)
    (ot : Option String) :
    ((pushOptAction reg base key ot).filter (isInvokeWithKey k)).length
      ≤ if k = key then 1 else 0 := by
  cases ot with
  | some txt => exact pushAction_filter_key reg base key txt k
  | none => simp [pushOptAction]

/-- Helper: per-key invocation bound for the panel block. -/
theorem pushPanelBlock_filter_key (hass : Hass) (ae slug k : String) :
    ((pushPanelBlock hass ae slug).filter (isInvokeWithKey k)).length
      ≤ if k = "name" then 1 else 0 := by
  rw [pushPanelBlock]
  rcases (hass.states ae).map panelNameOf with _ | pn
  · simp
  · show ((if pn = "" then []
        else pushAction hass.services (svcPanel slug) "name" pn).filter
          (isInvokeWithKey k)).length ≤ _
    by_cases hpn : pn = ""
    · simp [hpn]
    · rw [if_neg hpn]
      exact pushAction_filter_key hass.services (svcPanel slug) "name" pn k

/-- Helper: membership in an optional-text block. -/
theorem mem_pushOptAction (reg : String → Bool) (base key : String)
    (ot : Option String) (e : DispatchEv)
    (he : e ∈ pushOptAction reg base key ot) :
    (∃ n, e = .lookup n) ∨
      ∃ s txt, ot = some txt ∧ e = .invoke s key txt ∧ reg s = true ∧
        (pickEsphomeService reg base).2 = some s := by
  cases ot with
  | none => simp [pushOptAction] at he
  | some txt =>
    rcases mem_pushAction reg base key txt e he with h | ⟨s, h1, h2, h3⟩
    · exact Or.inl h
    · exact Or.inr ⟨s, txt, rfl, h1, h2, h3⟩

/-- Helper: membership in the panel block: any invocation carries the alarm
entity's display name, which is present and non-empty. -/
theorem mem_pushPanelBlock (hass : Hass) (ae slug : String) (e : DispatchEv)
    (he : e ∈ pushPanelBlock hass ae slug) :
    (∃ n, e = .lookup n) ∨
      ∃ s stt, hass.states ae = some stt ∧ panelNameOf stt ≠ "" ∧
        e = .invoke s "name" (panelNameOf stt) ∧ hass.services s = true := by
  rw [pushPanelBlock] at he
  rcases hs : hass.states ae with _ | stt
  · rw [hs] at he
    simp at he
  · rw [hs, Option.map_some'] at he
    have he2 : e ∈ (if panelNameOf stt = "" then []
        else pushAction hass.services (svcPanel slug) "name"
          (panelNameOf stt)) := he
    by_cases hpn : panelNameOf stt = ""
    · rw [if_pos hpn] at he2
      simp at he2
    · rw [if_neg hpn] at he2
      rcases mem_pushAction hass.services (svcPanel slug) "name" _ e he2 with
        h | ⟨s, h1, h2, _⟩
      · exact Or.inl h
      · exact Or.inr ⟨s, stt, rfl, hpn, h1, h2⟩

/-- Helper: an event occurs in `pushToAll` exactly when it occurs in the
trace of one of the devices. -/
theorem mem_pushToAll (hass : Hass) (ae : String) (st src : Option String)
    (e : DispatchEv) :
    ∀ devices : List String,
      (e ∈ pushToAll hass ae devices st src ↔
        ∃ d ∈ devices, e ∈ pushDevice hass ae st src d) := by
  intro devices
  induction devices with
  | nil => simp [pushToAll]
  | cons d rest ih =>
    simp only [pushToAll, List.mem_append, ih, List.mem_cons]
    constructor
    · rintro (h | ⟨d2, hd2, hin⟩)
      · exact ⟨d, Or.inl rfl, h⟩
      · exact ⟨d2, Or.inr hd2, hin⟩
    · rintro ⟨d2, hd2 | hd2, hin⟩
      · subst hd2; exact Or.inl hin
      · exact Or.inr ⟨d2, hd2, hin⟩

/-- Helper: `pushToAll` distributes over device-list concatenation. -/
theorem pushToAll_append (hass : Hass) (ae : String) (st src : Option String) :
    ∀ pre post : List String,
      pushToAll hass ae (pre ++ post) st src =
        pushToAll hass ae pre st src ++ pushToAll hass ae post st src := by
  intro pre post
  induction pre with
  | nil => simp [pushToAll]
  | cons d rest ih => simp [pushToAll, ih]

end Helpers

/-- C6: `_normalize_boolish` maps boolean `True` to `"true"` and `False` to
`"false"`, any other value to the lower-cased string form of the value, and
is idempotent: normalizing an already-normalized value changes nothing. -/
theorem normalize_boolish_spec :
    normalizeBoolish (.bool true) = "true" ∧
    normalizeBoolish (.bool false) = "false" ∧
    (∀ v : PyVal, (∀ b, v ≠ .bool b) →
      normalizeBoolish v = lowerAscii (pyStr v)) ∧
    (∀ v : PyVal,
      normalizeBoolish (.str (normalizeBoolish v)) = normalizeBoolish v) := by
  refine ⟨rfl, rfl, ?_, ?_⟩
  · intro v hv
    cases v with
    | bool b => exact absurd rfl (hv b)
    | str s => rfl
    | pynone => rfl
  · intro v
    cases v with
    | bool b => cases b <;> decide
    | str s =>
      show lowerAscii (lowerAscii s) = lowerAscii s
      exact lowerAscii_idem s
    | pynone => decide

/-- Witness for C6 at the raw value `"ON"`. -/
theorem normalize_boolish_spec_witness :
    normalizeBoolish (.str "ON") = lowerAscii (pyStr (.str "ON")) :=
  normalize_boolish_spec.2.2.1 (.str "ON") (fun b => by cases b <;> decide)

/-- C1: the resolver scans the cache from newest to oldest and chooses the
first record within the lookback window: a chosen record is in the cache,
its age is within the window, and every strictly newer record is outside
the window; on the scenario cache (Front Door at t = 0, Back Window at
t = 5) a trigger at t = 8 with a 10 s lookback attributes to Back Window. -/
theorem resolver_most_recent_within_window :
    (∀ (now lookback : Int) (cache : List ActivationRecord)
        (r : ActivationRecord),
        resolveChosen now lookback cache = some r →
          r ∈ cache ∧ now - r.ts ≤ lookback ∧
            ∃ pre post, cache = pre ++ r :: post ∧
              ∀ x ∈ post, ¬(now - x.ts ≤ lookback)) ∧
    resolveSource 8 10 [frontDoorRecord, backWindowRecord] none =
      "Back Window" := by
  constructor
  · intro now lookback cache r h
    rw [resolveChosen] at h
    refine ⟨List.mem_reverse.mp (List.mem_of_find?_eq_some h), ?_, ?_⟩
    · have hp := List.find?_some h
      exact of_decide_eq_true hp
    · obtain ⟨l₁, l₂, hsplit, hfail⟩ := find?_split h
      refine ⟨l₂.reverse, l₁.reverse, ?_, ?_⟩
      · have hrr : cache = cache.reverse.reverse := (List.reverse_reverse cache).symm
        rw [hrr, hsplit]
        simp
      · intro x hx
        exact of_decide_eq_false (hfail x (List.mem_reverse.mp hx))
  · decide

/-- Witness for C1 on the scenario cache: the chosen Back Window record is
cached, within the window, and nothing newer qualifies. -/
theorem resolver_most_recent_within_window_witness :
    backWindowRecord ∈ [frontDoorRecord, backWindowRecord] ∧
      (8 : Int) - backWindowRecord.ts ≤ 10 ∧
      ∃ pre post,
        [frontDoorRecord, backWindowRecord] = pre ++ backWindowRecord :: post ∧
          ∀ x ∈ post, ¬((8 : Int) - x.ts ≤ 10) :=
  resolver_most_recent_within_window.1 8 10 [frontDoorRecord, backWindowRecord]
    backWindowRecord (by decide)

/-- C2: attribution follows the three-tier precedence exactly: a qualifying
cached record's display name wins; otherwise a present, non-empty raw
`source` attribute; otherwise the literal `"Alarm"` (also when the
attribute is present but empty); on an empty cache with no source
attribute the result is `"Alarm"`. -/
theorem resolver_fallback_chain :
    (∀ (now lookback : Int) (cache : List ActivationRecord)
        (raw : Option String) (r : ActivationRecord),
        resolveChosen now lookback cache = some r →
          resolveSource now lookback cache raw = r.name) ∧
    (∀ (now lookback : Int) (cache : List ActivationRecord) (s : String),
        resolveChosen now lookback cache = none → s ≠ "" →
          resolveSource now lookback cache (some s) = s) ∧
    (∀ (now lookback : Int) (cache : List ActivationRecord)
        (raw : Option String),
        resolveChosen now lookback cache = none →
          (raw = none ∨ raw = some "") →
            resolveSource now lookback cache raw = "Alarm") ∧
    resolveSource 8 10 [] none = "Alarm" := by
  refine ⟨?_, ?_, ?_, by decide⟩
  · intro now lookback cache raw r h
    simp [resolveSource, h]
  · intro now lookback cache s h hs
    simp [resolveSource, h, pyOrStr, hs]
  · intro now lookback cache raw h hr
    rcases hr with rfl | rfl <;> simp [resolveSource, h, pyOrStr]

/-- Witness for C2: the attribute fallback on an empty cache (scenario B). -/
theorem resolver_fallback_chain_witness :
    resolveSource 8 10 [] (some "Garage") = "Garage" :=
  resolver_fallback_chain.2.1 8 10 [] "Garage" (by decide) (by decide)

/-- C5: for every alarm notification carrying a new state, a push with the
normalized alarm state as `state_text` occurs, whatever the state is, and a
push carrying a `source_text` occurs exactly when the normalized state is
`"triggered"`. -/
theorem alarm_change_push_discipline :
    ∀ (now lookback : Int) (cache : List ActivationRecord) (ev : Event)
      (ns : StateObj), ev.new_state = some ns →
        (some (normalizeBoolish ns.state), (none : Option String)) ∈
            onAlarmChange now lookback cache ev ∧
          ((∃ src, ((none : Option String), some src) ∈
              onAlarmChange now lookback cache ev) ↔
            normalizeBoolish ns.state = "triggered") := by
  intro now lookback cache ev ns h
  simp only [onAlarmChange, h]
  by_cases ht : normalizeBoolish ns.state = "triggered"
  · rw [if_pos ht]
    refine ⟨List.mem_cons_self _ _, ?_, ?_⟩
    · intro _
      exact ht
    · intro _
      exact ⟨resolveSource now lookback cache (attrGet ns.attributes "source"),
        by simp⟩
  · rw [if_neg ht]
    refine ⟨List.mem_cons_self _ _, ?_, ?_⟩
    · rintro ⟨src, hsrc⟩
      simp at hsrc
    · intro hc
      exact absurd hc ht

/-- Witness for C5 on a concrete triggered alarm notification. -/
theorem alarm_change_push_discipline_witness :
    (some (normalizeBoolish (PyVal.str "triggered")), (none : Option String)) ∈
        onAlarmChange 0 60 []
          ⟨some "alarm_control_panel.home", none,
            some ⟨.str "triggered", [], "Alarm Panel"⟩⟩ ∧
      ((∃ src, ((none : Option String), some src) ∈
          onAlarmChange 0 60 []
            ⟨some "alarm_control_panel.home", none,
              some ⟨.str "triggered", [], "Alarm Panel"⟩⟩) ↔
        normalizeBoolish (PyVal.str "triggered") = "triggered") :=
  alarm_change_push_discipline 0 60 []
    ⟨some "alarm_control_panel.home", none,
      some ⟨.str "triggered", [], "Alarm Panel"⟩⟩
    ⟨.str "triggered", [], "Alarm Panel"⟩ rfl

/-- Counterexample to C3: a sensor notification with `old_state` missing
still appends an activation record when every other ingestion condition
holds. -/
theorem missing_old_state_still_appends :
    missingOldStateEvent.old_state = none ∧
      onBinarySensorChange 0 [] missingOldStateEvent ≠ [] := by
  constructor
  · rfl
  · decide

/-- C3 (amended): a cache entry requires a present, non-empty entity id and
a present new state; a missing `old_state` is treated as an absent old
value, which never equals the normalized new state, so such a notification
still appends a record whenever the remaining conditions hold. -/
theorem sensor_ingestion_conditions :
    (∀ (now : Int) (cache : List ActivationRecord) (ev : Event),
        ev.entity_id = none → onBinarySensorChange now cache ev = cache) ∧
    (∀ (now : Int) (cache : List ActivationRecord) (ev : Event),
        ev.entity_id = some "" → onBinarySensorChange now cache ev = cache) ∧
    (∀ (now : Int) (cache : List ActivationRecord) (ev : Event),
        ev.new_state = none → onBinarySensorChange now cache ev = cache) ∧
    (∀ (now : Int) (cache : List ActivationRecord) (eid : String)
        (ns : StateObj) (dc : String),
        eid ≠ "" →
        attrGet ns.attributes "device_class" = some dc →
        dc ∈ relevantDeviceClasses →
        normalizeBoolish ns.state ≠ "unknown" →
        normalizeBoolish ns.state ≠ "unavailable" →
        normalizeBoolish ns.state ≠ "none" →
        normalizeBoolish ns.state ∈ activeStates →
        onBinarySensorChange now cache ⟨some eid, none, some ns⟩ =
          triggerCacheAppend cache
            ⟨now, eid, pyOrStr (attrGet ns.attributes "friendly_name") eid,
              dc, normalizeBoolish ns.state⟩) := by
  refine ⟨?_, ?_, ?_, ?_⟩
  · intro now cache ev h
    rcases ev with ⟨eid, os, nst⟩
    rcases eid with _ | eid
    · rcases nst with _ | ns <;> rfl
    · exact absurd h (by simp)
  · intro now cache ev h
    rcases ev with ⟨eid, os, nst⟩
    have heid : eid = some "" := h
    subst heid
    rcases nst with _ | ns
    · rfl
    · simp [onBinarySensorChange]
  · intro now cache ev h
    rcases ev with ⟨eid, os, nst⟩
    have hns : nst = none := h
    subst hns
    rcases eid with _ | eid <;> rfl
  · intro now cache eid ns dc h1 h2 h3 h4 h5 h6 h7
    simp only [onBinarySensorChange, h2]
    rw [if_neg h1, if_neg (by simp [h4, h5, h6]), if_pos h3]
    simp [h7]

/-- Witness for C3 (amended): the counterexample event appends. -/
theorem sensor_ingestion_conditions_witness :
    onBinarySensorChange 0 [] missingOldStateEvent =
      triggerCacheAppend []
        ⟨0, "binary_sensor.front_door",
          pyOrStr
            (attrGet [("device_class", "door")] "friendly_name")
            "binary_sensor.front_door",
          "door",
          normalizeBoolish (.str "on")⟩ :=
  sensor_ingestion_conditions.2.2.2 0 [] "binary_sensor.front_door"
    ⟨.str "on", [("device_class", "door")], "Front Door"⟩ "door"
    (by decide) (by decide) (by decide) (by decide) (by decide) (by decide)
    (by decide)

/-- C4: the trigger cache is bounded by its construction capacity of 300
records: appending within capacity stays within capacity, appending to a
full cache evicts exactly the oldest record, and a stream of
`capacity + k` appends into an empty cache leaves exactly the `capacity`
most recent records in insertion order. -/
theorem trigger_cache_bounded :
    cacheCapacity = 300 ∧
    (∀ (q : List ActivationRecord) (x : ActivationRecord),
        q.length ≤ cacheCapacity →
          (triggerCacheAppend q x).length ≤ cacheCapacity) ∧
    (∀ (q : List ActivationRecord) (x : ActivationRecord),
        q.length = cacheCapacity → triggerCacheAppend q x = q.tail ++ [x]) ∧
    (∀ (xs : List ActivationRecord) (k : Nat),
        xs.length = cacheCapacity + k →
          List.foldl triggerCacheAppend [] xs = xs.drop k) := by
  refine ⟨rfl, ?_, ?_, ?_⟩
  · intro q x hq
    exact dequeAppend_length_le cacheCapacity q x hq
  · intro q x hq
    rw [triggerCacheAppend, dequeAppend]
    have h1 : (q ++ [x]).length - cacheCapacity = 1 := by
      simp only [List.length_append, List.length_cons, List.length_nil, hq]
      omega
    rw [h1, List.drop_append_of_le_length (by rw [hq]; decide), List.drop_one]
  · intro xs k hk
    have heta : List.foldl triggerCacheAppend [] xs =
        List.foldl (dequeAppend cacheCapacity) [] xs := rfl
    rw [heta, foldl_dequeAppend cacheCapacity xs [] (by simp)]
    simp only [List.nil_append]
    have hdk : xs.length - cacheCapacity = k := by omega
    rw [hdk]

/-- Witness for C4: 301 appends into the empty cache keep the 300 most
recent records. -/
theorem trigger_cache_bounded_witness :
    List.foldl triggerCacheAppend [] (List.replicate 301 frontDoorRecord) =
      (List.replicate 301 frontDoorRecord).drop 1 :=
  trigger_cache_bounded.2.2.2 (List.replicate 301 frontDoorRecord) 1
    (by rw [List.length_replicate]; rfl)

/-- Helper: a successful pick returns a registered candidate, and every
candidate tried before it is unregistered. -/
theorem findFirstService_some (reg : String → Bool) :
    ∀ (cands : List String) (s : String),
      (findFirstService reg cands).2 = some s →
        reg s = true ∧ ∃ pre post, cands = pre ++ s :: post ∧
          ∀ c ∈ pre, reg c = false := by
  intro cands
  induction cands with
  | nil => intro s h; simp [findFirstService] at h
  | cons c rest ih =>
    intro s h
    by_cases hc : reg c
    · simp only [findFirstService, hc, if_true] at h
      obtain rfl : c = s := by simpa using h
      exact ⟨hc, [], rest, rfl, by simp⟩
    · simp only [findFirstService, hc, Bool.false_eq_true, if_false] at h
      obtain ⟨hs, pre, post, hsplit, hfail⟩ := ih s h
      refine ⟨hs, c :: pre, post, by simp [hsplit], ?_⟩
      intro x hx
      rcases List.mem_cons.mp hx with rfl | hx
      · exact Bool.not_eq_true _ ▸ hc
      · exact hfail x hx

/-- Helper: any invocation with payload key `"name"` in a push cycle comes
from the panel block and carries the present, non-empty display name. -/
theorem panel_invoke_payload (hass : Hass) (ae : String)
    (devices : List String) (st src : Option String) (s v : String)
    (hmem : DispatchEv.invoke s "name" v ∈ pushToAll hass ae devices st src) :
    ∃ stt, hass.states ae = some stt ∧ v = panelNameOf stt ∧
      panelNameOf stt ≠ "" := by
  rcases (mem_pushToAll hass ae st src _ devices).mp hmem with ⟨d, -, hd⟩
  rw [pushDevice] at hd
  by_cases hslug : deviceSlug d = ""
  · rw [if_pos hslug] at hd
    simp at hd
  · rw [if_neg hslug] at hd
    rcases List.mem_append.mp hd with h12 | h3
    · rcases List.mem_append.mp h12 with h1 | h2
      · rcases mem_pushOptAction _ _ _ _ _ h1 with
          ⟨n, hn⟩ | ⟨s2, txt, -, heq, -, -⟩
        · simp at hn
        · exact absurd (DispatchEv.invoke.inj heq).2.1 (by decide)
      · rcases mem_pushOptAction _ _ _ _ _ h2 with
          ⟨n, hn⟩ | ⟨s2, txt, -, heq, -, -⟩
        · simp at hn
        · exact absurd (DispatchEv.invoke.inj heq).2.1 (by decide)
    · rcases mem_pushPanelBlock _ _ _ _ h3 with
        ⟨n, hn⟩ | ⟨s2, stt, hstt, hpn, heq, -⟩
      · simp at hn
      · obtain ⟨-, -, hv⟩ := DispatchEv.invoke.inj heq
        exact ⟨stt, hstt, hv, hpn⟩

/-- Counterexample to C7: the device `"esphome."` derives the empty slug;
its set-alarm-state action `"_set_alarm_state"` is the only registered
service (no set-source or set-panel-name variant exists), yet a push with
both texts set makes zero invocations, because the device is skipped. -/
theorem empty_slug_skips_registered_state_action :
    deviceSlug "esphome." = "" ∧
      bareStateHass.services (svcState (deviceSlug "esphome.")) = true ∧
      (∀ c ∈ serviceCandidates (svcSource (deviceSlug "esphome.")),
        bareStateHass.services c = false) ∧
      (∀ c ∈ serviceCandidates (svcPanel (deviceSlug "esphome.")),
        bareStateHass.services c = false) ∧
      ((pushDevice bareStateHass "alarm_control_panel.home" (some "triggered")
          (some "Alarm") "esphome.").filter isInvokeEv).length = 0 := by
  decide

/-- C7 (amended): for a push with both texts set and a target device whose
derived slug is non-empty, if the slug's exact set-alarm-state action is
registered and no set-source or set-panel-name name variant is, exactly
one remote-action invocation is made for that device. -/
theorem push_state_only_invokes_once :
    ∀ (hass : Hass) (ae dev st src : String),
      deviceSlug dev ≠ "" →
      hass.services (svcState (deviceSlug dev)) = true →
      (∀ c ∈ serviceCandidates (svcSource (deviceSlug dev)),
        hass.services c = false) →
      (∀ c ∈ serviceCandidates (svcPanel (deviceSlug dev)),
        hass.services c = false) →
      ((pushDevice hass ae (some st) (some src) dev).filter
          isInvokeEv).length = 1 := by
  intro hass ae dev st src hslug hstate hsrc hpanel
  rw [pushDevice, if_neg hslug]
  rw [List.filter_append, List.filter_append, List.length_append,
    List.length_append]
  simp only [pushOptAction]
  rw [pushAction_exact_registered hass.services _ "state" st hstate,
    pushAction_unregistered hass.services _ "source" src hsrc,
    pushPanelBlock_unregistered hass ae _ hpanel]
  simp [isInvokeEv, List.filter]

/-- Witness for C7 (amended) on a concrete device and registry. -/
theorem push_state_only_invokes_once_witness :
    ((pushDevice dev1StateHass "alarm_control_panel.home" (some "triggered")
        (some "Alarm") "esphome.dev1").filter isInvokeEv).length = 1 :=
  push_state_only_invokes_once dev1StateHass "alarm_control_panel.home"
    "esphome.dev1" "triggered" "Alarm" (by decide) (by decide) (by decide)
    (by decide)

/-- C8: every panel-name invocation in a push cycle carries the alarm
entity's current friendly display name (the `friendly_name` attribute,
falling back to the state's name) as payload; when the alarm entity is
absent or that display name is empty, no panel-name invocation is made for
any device in the cycle. -/
theorem panel_name_payload_and_skip :
    (∀ (hass : Hass) (ae : String) (devices : List String)
        (st src : Option String) (s v : String),
        DispatchEv.invoke s "name" v ∈ pushToAll hass ae devices st src →
          ∃ stt, hass.states ae = some stt ∧ v = panelNameOf stt ∧
            panelNameOf stt ≠ "") ∧
    (∀ (hass : Hass) (ae : String) (devices : List String)
        (st src : Option String) (s v : String),
        (hass.states ae = none ∨
          ∃ stt, hass.states ae = some stt ∧ panelNameOf stt = "") →
          DispatchEv.invoke s "name" v ∉ pushToAll hass ae devices st src) := by
  constructor
  · intro hass ae devices st src s v hmem
    exact panel_invoke_payload hass ae devices st src s v hmem
  · intro hass ae devices st src s v habs hmem
    obtain ⟨stt, hstt, -, hne⟩ :=
      panel_invoke_payload hass ae devices st src s v hmem
    rcases habs with h | ⟨stt2, hstt2, hemp⟩
    · rw [h] at hstt
      cases hstt
    · rw [hstt2] at hstt
      obtain rfl : stt2 = stt := Option.some.inj hstt
      exact hne hemp

/-- Witness for C8: with no alarm entity state, no panel-name invocation
occurs. -/
theorem panel_name_payload_and_skip_witness :
    DispatchEv.invoke "dev1_set_alarm_panel_name" "name" "Home"
      ∉ pushToAll emptyHass "alarm_control_panel.home" ["esphome.dev1"]
        (some "armed_home") none :=
  panel_name_payload_and_skip.2 emptyHass "alarm_control_panel.home"
    ["esphome.dev1"] (some "armed_home") none "dev1_set_alarm_panel_name"
    "Home" (Or.inl rfl)

/-- C9: the pick consults, in order, the exact name, the dash-to-underscore
variant, and the underscore-to-dash variant, and returns the first
registered one; each action therefore contributes at most one invocation
per device in a single push, and any state invocation calls exactly the
picked service. -/
theorem service_variant_resolution :
    (∀ (reg : String → Bool) (base s : String),
        (pickEsphomeService reg base).2 = some s →
          reg s = true ∧
            ∃ pre post,
              [base, dashToUnderscore base, underscoreToDash base] =
                pre ++ s :: post ∧
                ∀ c ∈ pre, reg c = false) ∧
    (∀ (hass : Hass) (ae : String) (st src : Option String) (d k : String),
        ((pushDevice hass ae st src d).filter
          (isInvokeWithKey k)).length ≤ 1) ∧
    (∀ (hass : Hass) (ae : String) (st src : Option String) (d s v : String),
        DispatchEv.invoke s "state" v ∈ pushDevice hass ae st src d →
          (pickEsphomeService hass.services
            (svcState (deviceSlug d))).2 = some s) := by
  refine ⟨?_, ?_, ?_⟩
  · intro reg base s h
    have h2 := findFirstService_some reg (serviceCandidates base) s h
    rw [serviceCandidates] at h2
    exact h2
  · intro hass ae st src d k
    rw [pushDevice]
    by_cases hslug : deviceSlug d = ""
    · rw [if_pos hslug]
      simp
    · rw [if_neg hslug]
      rw [List.filter_append, List.filter_append, List.length_append,
        List.length_append]
      have h1 := pushOptAction_filter_key hass.services
        (svcState (deviceSlug d)) "state" k st
      have h2 := pushOptAction_filter_key hass.services
        (svcSource (deviceSlug d)) "source" k src
      have h3 := pushPanelBlock_filter_key hass ae (deviceSlug d) k
      by_cases e1 : k = "state"
      · subst e1
        rw [if_pos rfl] at h1
        rw [if_neg (by decide)] at h2
        rw [if_neg (by decide)] at h3
        omega
      · by_cases e2 : k = "source"
        · subst e2
          rw [if_neg (by decide)] at h1
          rw [if_pos rfl] at h2
          rw [if_neg (by decide)] at h3
          omega
        · by_cases e3 : k = "name"
          · subst e3
            rw [if_neg (by decide)] at h1
            rw [if_neg (by decide)] at h2
            rw [if_pos rfl] at h3
            omega
          · rw [if_neg e1] at h1
            rw [if_neg e2] at h2
            rw [if_neg e3] at h3
            omega
  · intro hass ae st src d s v hmem
    rw [pushDevice] at hmem
    by_cases hslug : deviceSlug d = ""
    · rw [if_pos hslug] at hmem
      simp at hmem
    · rw [if_neg hslug] at hmem
      rcases List.mem_append.mp hmem with h12 | h3
      · rcases List.mem_append.mp h12 with h1 | h2
        · rcases mem_pushOptAction _ _ _ _ _ h1 with
            ⟨n, hn⟩ | ⟨s2, txt, -, heq, -, hpick⟩
          · simp at hn
          · obtain ⟨hs, -, -⟩ := DispatchEv.invoke.inj heq
            rw [hs]
            exact hpick
        · rcases mem_pushOptAction _ _ _ _ _ h2 with
            ⟨n, hn⟩ | ⟨s2, txt, -, heq, -, -⟩
          · simp at hn
          · exact absurd (DispatchEv.invoke.inj heq).2.1 (by decide)
      · rcases mem_pushPanelBlock _ _ _ _ h3 with
          ⟨n, hn⟩ | ⟨s2, stt, -, -, heq, -⟩
        · simp at hn
        · exact absurd (DispatchEv.invoke.inj heq).2.1 (by decide)

/-- Witness for C9: a dashed base name resolves to its registered
underscore variant. -/
theorem service_variant_resolution_witness :
    (fun s => s == "dev_1_set_alarm_state") "dev_1_set_alarm_state" = true ∧
      ∃ pre post,
        ["dev-1_set_alarm_state",
          dashToUnderscore "dev-1_set_alarm_state",
          underscoreToDash "dev-1_set_alarm_state"] =
          pre ++ "dev_1_set_alarm_state" :: post ∧
          ∀ c ∈ pre, (fun s => s == "dev_1_set_alarm_state") c = false :=
  service_variant_resolution.1 (fun s => s == "dev_1_set_alarm_state")
    "dev-1_set_alarm_state" "dev_1_set_alarm_state" (by decide)

/-- C10: a device whose derived slug is empty is skipped: its trace is
empty (no registry lookups, no invocations), and removing it from the
device list leaves the push of the remaining devices unchanged. -/
theorem empty_slug_device_skipped :
    ∀ (hass : Hass) (ae : String) (st src : Option String) (d : String),
      deviceSlug d = "" →
        pushDevice hass ae st src d = [] ∧
        ∀ pre post : List String,
          pushToAll hass ae (pre ++ d :: post) st src =
            pushToAll hass ae (pre ++ post) st src := by
  intro hass ae st src d h
  constructor
  · rw [pushDevice, if_pos h]
  · intro pre post
    rw [pushToAll_append, pushToAll_append]
    have hd : pushToAll hass ae (d :: post) st src =
        pushDevice hass ae st src d ++ pushToAll hass ae post st src := rfl
    rw [hd, pushDevice, if_pos h, List.nil_append]

/-- Witness for C10 at the device id `"esphome."`. -/
theorem empty_slug_device_skipped_witness :
    pushDevice emptyHass "alarm_control_panel.home" (some "triggered")
        (some "Alarm") "esphome." = [] :=
  (empty_slug_device_skipped emptyHass "alarm_control_panel.home"
    (some "triggered") (some "Alarm") "esphome." (by decide)).1

end VibeAlarmSys
